import Mathlib

/-!
Shallow embedding of the Ansible deploy driver
(`ironic_staging_drivers/ansible/deploy.py`) and proofs about it.

The driver orchestrates deployment and cleaning of a bare-metal node by
invoking an external `ansible-playbook` subprocess.  External collaborators
(DHCP provider, power control, networking, image catalog, subprocess
execution, file system) are modelled as inputs: an `Env` structure holds the
outcome each collaborator would produce, and the embedded functions return
the trace of collaborator calls they perform as a `List Event` together with
an `Except` result mirroring Python exceptions.
-/

namespace AnsibleDeploy

/-! ## Provision and power state constants

Values of `ironic.common.states` used by the driver (external constants;
their exact strings are irrelevant, only their distinctness matters). -/

def POWER_ON : String := "power on"

def POWER_OFF : String := "power off"

def REBOOT : String := "rebooting"

def DEPLOYWAIT : String := "wait call-back"

def DEPLOYDONE : String := "done"

def DELETED : String := "deleted"

/-! ## Python value and string helpers -/

/-- Values stored in the node's `instance_info` dict. -/
inductive PyVal where
  | vstr (s : String)
  | vint (z : Int)
  | vbool (b : Bool)
deriving DecidableEq, Repr

/-- Kernel-reducible `str.startswith(pre)`. -/
def strStartsWith (s pre : String) : Bool := pre.toList.isPrefixOf s.toList

/-- Python whitespace characters stripped by `int()`. -/
def isPySpace (c : Char) : Bool :=
  c = ' ' || c = '\t' || c = '\n' || c = '\r' || c = '\x0b' || c = '\x0c'

def strTrim (s : String) : String :=
  String.mk (((s.toList.dropWhile isPySpace).reverse.dropWhile isPySpace).reverse)

def digitsToNat? (l : List Char) : Option Nat :=
  if l ≠ [] && l.all Char.isDigit then
    some (l.foldl (fun acc c => 10 * acc + (c.toNat - 48)) 0)
  else none

def strToLower (s : String) : String := String.mk (s.toList.map Char.toLower)

def strContainsChar (s : String) (c : Char) : Bool := s.toList.any (fun x => x = c)

/-- Python `int(s)` on a decimal string: optional surrounding whitespace and
an optional sign, then digits; `none` models `ValueError`. -/
def pyInt (s : String) : Option Int :=
  match (strTrim s).toList with
  | '+' :: rest => (digitsToNat? rest).map Int.ofNat
  | '-' :: rest => (digitsToNat? rest).map (fun n => -(Int.ofNat n))
  | t => (digitsToNat? t).map Int.ofNat

def hexDigitVal (c : Char) : Option Nat :=
  if c.isDigit then some (c.toNat - 48)
  else if 'a' ≤ c ∧ c ≤ 'f' then some (c.toNat - 87)
  else if 'A' ≤ c ∧ c ≤ 'F' then some (c.toNat - 55)
  else none

/-- Percent-decoding of `urllib.parse.unquote` (single-byte escapes; an
invalid escape is left verbatim, as in Python). -/
def unquoteChars : List Char → List Char
  | [] => []
  | '%' :: a :: b :: rest =>
    match hexDigitVal a, hexDigitVal b with
    | some ha, some hb => Char.ofNat (16 * ha + hb) :: unquoteChars rest
    | _, _ => '%' :: unquoteChars (a :: b :: rest)
  | c :: rest => c :: unquoteChars rest

def pyUnquote (s : String) : String := String.mk (unquoteChars s.toList)

def schemeChar (c : Char) : Bool := c.isAlphanum || c = '+' || c = '-' || c = '.'

def isValidScheme (s : String) : Bool :=
  match s.toList with
  | [] => false
  | c :: rest => c.isAlpha && rest.all schemeChar

/-- Scheme-splitting step of `urllib.parse.urlparse`: if the text before the
first colon is a valid scheme, strip it (lower-cased), else leave the URL
untouched. -/
def splitScheme (url : String) : String × String :=
  match url.toList.findIdx? (fun c => c = ':') with
  | none => ("", url)
  | some i =>
    let pre := url.take i
    if isValidScheme pre then (strToLower pre, url.drop (i + 1)) else ("", url)

def pyScheme (url : String) : String := (splitScheme url).1

/-- Network-location component of `urllib.parse.urlparse`: present only when
the remainder after the scheme starts with `//`, and extends to the next
`/`, `?` or `#`. -/
def pyNetloc (url : String) : String :=
  let rest := (splitScheme url).2
  if strStartsWith rest "//" then
    String.mk ((rest.drop 2).toList.takeWhile (fun c => c ≠ '/' && c ≠ '?' && c ≠ '#'))
  else ""

/-- Python `s.split(':')[0]`. -/
def splitColonHead (s : String) : String :=
  String.mk (s.toList.takeWhile (fun c => c ≠ ':'))

/-- Python `strutils.bool_from_string(value, default=False)` over an optional
string (absent key gives the `False` default used at the call site). -/
def boolFromString (o : Option String) : Bool :=
  match o with
  | none => false
  | some s => ["1", "t", "true", "on", "y", "yes"].any (fun t => t = strToLower s)

/-- Python dict assignment `d[k] = v` on an association list: overwrite in
place when the key exists, append otherwise. -/
def assocSet (l : List (String × PyVal)) (k : String) (v : PyVal) : List (String × PyVal) :=
  if (l.lookup k).isSome then l.map (fun p => if p.1 = k then (k, v) else p)
  else l ++ [(k, v)]

/-! ## Root device hints: `_parse_root_device_hints`

The input is the dict produced by the external
`ironic_lib.utils.parse_root_device_hints`, whose values are either
operator-prefixed strings or non-string scalars. -/

/-- Value of one parsed root-device hint. -/
inductive HVal where
  | s (x : String)
  | i (z : Int)
  | b (x : Bool)
deriving DecidableEq, Repr

inductive HintErr where
  /-- `InvalidParameterValue` naming the advanced (unsupported) hints. -/
  | unsupported (advanced : List (String × String))
  /-- Python `ValueError` escaping from `int()`. -/
  | valueError
deriving DecidableEq, Repr

/-- Loop body of `_parse_root_device_hints`: split the hints into the
supported translations and the `advanced` leftovers, in iteration order. -/
def hintsLoop : List (String × HVal) → Except HintErr (List (String × HVal) × List (String × String))
  | [] => .ok ([], [])
  | (hint, v) :: rest =>
    match v with
    | .s str =>
      if strStartsWith str "== " then
        match pyInt (str.drop 3) with
        | none => .error .valueError
        | some z =>
          match hintsLoop rest with
          | .error e => .error e
          | .ok (r, a) => .ok ((hint, .i z) :: r, a)
      else if strStartsWith str "s== " then
        match hintsLoop rest with
        | .error e => .error e
        | .ok (r, a) => .ok ((hint, .s (pyUnquote (str.drop 4))) :: r, a)
      else
        match hintsLoop rest with
        | .error e => .error e
        | .ok (r, a) => .ok (r, (hint, str) :: a)
    | _ =>
      match hintsLoop rest with
      | .error e => .error e
      | .ok (r, a) => .ok ((hint, v) :: r, a)

def parseRootDeviceHintsList (hints : List (String × HVal)) :
    Except HintErr (List (String × HVal)) :=
  match hintsLoop hints with
  | .error e => .error e
  | .ok (r, a) => if a ≠ [] then .error (.unsupported a) else .ok r

/-- `_parse_root_device_hints`: `node.properties['root_device']` absent or
falsy (empty) gives `{}`; otherwise translate the parsed hints. -/
def parseRootDeviceHints (root_device : List (String × HVal)) :
    Except HintErr (List (String × HVal)) :=
  if root_device = [] then .ok []
  else parseRootDeviceHintsList root_device

/-! ## Partitioning: `_parse_partitioning_info` -/

structure Partition where
  name : String
  size : Int
  unit : String
  format : Option String := none
  flags : List (String × String) := []
deriving DecidableEq, Repr

structure PartitionInfo where
  label : String
  ephemeral_format : Option String := none
  preserve_ephemeral : Option String := none
  partitions : List Partition
deriving DecidableEq, Repr

/-- Fields of `node.instance_info` read by `_parse_partitioning_info`
(`disk_label` stands for the external `deploy_utils.get_disk_label`). -/
structure PartInput where
  disk_label : Option String := none
  ephemeral_mb : Int := 0
  ephemeral_format : String := ""
  preserve_ephemeral : Bool := false
  swap_mb : Int := 0
  configdrive : Option String := none
  root_mb : Int := 0
deriving DecidableEq, Repr

/-- Python truthiness of an optional string (absent or empty is falsy). -/
def truthyOptStr (o : Option String) : Bool := o.getD "" ≠ ""

def biosPartition : Partition :=
  { name := "bios", size := 1, unit := "MiB", flags := [("bios_grub", "yes")] }

def parsePartitioningInfo (info : PartInput) : PartitionInfo :=
  let label := match info.disk_label with
    | none => "msdos"
    | some s => if s = "" then "msdos" else s
  let parts1 : List Partition :=
    if label = "gpt" then [biosPartition] else []
  let parts2 :=
    if info.ephemeral_mb ≠ 0 then
      parts1 ++ [{ name := "ephemeral", size := info.ephemeral_mb, unit := "MiB",
                   format := some info.ephemeral_format }]
    else parts1
  let parts3 :=
    if info.swap_mb ≠ 0 then
      parts2 ++ [{ name := "swap", size := info.swap_mb, unit := "MiB",
                   format := some "linux-swap" }]
    else parts2
  let parts4 :=
    if truthyOptStr info.configdrive then
      parts3 ++ [{ name := "configdrive", size := 64, unit := "MiB",
                   format := some "fat32" }]
    else parts3
  let root : Partition :=
    { name := "root", size := info.root_mb, unit := "MiB",
      flags := if label = "msdos" then [("boot", "yes")] else [] }
  { label := label
    ephemeral_format := if info.ephemeral_mb ≠ 0 then some info.ephemeral_format else none
    preserve_ephemeral :=
      if info.ephemeral_mb ≠ 0 then some (if info.preserve_ephemeral then "yes" else "no")
      else none
    partitions := parts4 ++ [root] }

/-! ## Clean steps: `_validate_clean_steps` and `_get_clean_steps`

The YAML file read is external; the embedded functions take the already
parsed document, a list of step declarations. -/

/-- One argument declaration inside a step's `args` dict: the `required`
flag (`arg.get('required', False)`) and the optional `value` entry. -/
structure ArgDecl where
  required : Bool := false
  value : Option String := none
deriving DecidableEq, Repr

/-- One step declaration from the clean-steps document; `none` models an
absent dict key. -/
structure StepDecl where
  name : Option String := none
  interface : Option String := none
  priority : Option Int := none
  args : List (String × ArgDecl) := []
deriving DecidableEq, Repr

/-- Pairs contributed by one step to the `missing` list of
`_validate_clean_steps`; a step with a falsy name contributes only the
name pair (the Python loop does `continue`). -/
def stepMissingPairs (step : StepDecl) : List (String × String) :=
  match step.name with
  | none => [("undefined", "name")]
  | some n =>
    if n = "" then [("undefined", "name")]
    else
      (if step.interface.isNone then [(n, "interface")] else []) ++
      step.args.filterMap (fun a =>
        if a.2.required && a.2.value.isNone then some (n, a.1 ++ ".value") else none)

def missingOf (steps : List StepDecl) : List (String × String) :=
  steps.flatMap stepMissingPairs

inductive CleanErr where
  /-- `NodeCleaningFailure` for a malformed clean-steps file, with the
  enumerated `(name, field)` pairs. -/
  | malformed (pairs : List (String × String))
  /-- `NodeCleaningFailure` for non-unique step names. -/
  | duplicates
deriving DecidableEq, Repr

def validateCleanSteps (steps : List StepDecl) : Except CleanErr Unit :=
  let missing := missingOf steps
  if missing ≠ [] then .error (.malformed missing)
  else if ((steps.map (fun s => s.name.getD "")).dedup.length ≠ steps.length) then
    .error .duplicates
  else .ok ()

/-- One resulting clean step dict built by `_get_clean_steps`. -/
structure CleanStep where
  interface : String
  step : String
  priority : Int
  abortable : Bool
  argsinfo : List (String × Bool)
  args : List (String × Option String)
deriving DecidableEq, Repr

/-- Step construction inside the `_get_clean_steps` loop (`params['name']`
and `params['interface']` are present after validation, hence `getD`). -/
def buildCleanStep (override : List (String × Int)) (p : StepDecl) : CleanStep :=
  let name := p.name.getD ""
  let clean_if := p.interface.getD ""
  { interface := clean_if
    step := name
    priority :=
      match override.lookup name with
      | some np => np
      | none => p.priority.getD 0
    abortable := false
    argsinfo := p.args.map (fun a => (a.1, a.2.required))
    args := p.args.map (fun a => (a.1, a.2.value)) }

/-- `_get_clean_steps` on an already loaded document: validate the full
document, then build the step list, skipping steps whose interface differs
from the requested one. -/
def getCleanSteps (doc : List StepDecl) (interface : Option String)
    (override : List (String × Int)) : Except CleanErr (List CleanStep) :=
  match validateCleanSteps doc with
  | .error e => .error e
  | .ok _ =>
    .ok (doc.filterMap (fun p =>
      let clean_if := p.interface.getD ""
      match interface with
      | some i => if i ≠ clean_if then none else some (buildCleanStep override p)
      | none => some (buildCleanStep override p)))

/-! ## Orchestration model

`Config` mirrors the `[ansible]` configuration group (plus `CONF.tempdir`),
`Env` the outcomes of the external collaborators, `Node` the fields of the
node record that the driver reads. -/

structure Config where
  use_ramdisk_callback : Bool := true
  extra_memory : Int := 10
  post_deploy_get_power_state_retries : Nat := 6
  post_deploy_get_power_state_retry_interval : Nat := 5
  tempdir : String := "/tmp"
deriving Repr

/-- Subset of `node.driver_internal_info` the deploy paths read. -/
structure DriverInternalInfo where
  agent_url : Option String := none
  is_whole_disk_image : Bool := false
deriving DecidableEq, Repr

structure Node where
  uuid : String := "node-1"
  driver_info : List (String × String) := []
  instance_info : List (String × PyVal) := []
  driver_internal_info : DriverInternalInfo := {}
  root_device : List (String × HVal) := []
  part : PartInput := {}
  extra : String := ""
deriving DecidableEq, Repr

/-- Outcomes the external collaborators would produce during one deploy
run: leased DHCP addresses, image byte size, subprocess results, successive
power-state readings, and power/network action results. -/
structure Env where
  dhcp_addresses : List String := []
  image_size : Nat := 0
  deploy_playbook_result : Except String Unit := .ok ()
  shutdown_playbook_result : Except String Unit := .ok ()
  power_state_reads : Nat → String := fun _ => POWER_OFF
  power_off_result : Except String Unit := .ok ()
  power_on_result : Except String Unit := .ok ()
  remove_provisioning_result : Except String Unit := .ok ()
  configure_tenant_result : Except String Unit := .ok ()

/-- Exceptions raised by the embedded driver code. -/
inductive Err where
  /-- `FailedToGetIPAddressOnPort`: zero DHCP addresses. -/
  | failedToGetIPAddressOnPort
  /-- `InstanceDeployFailure` with its reason text. -/
  | instanceDeployFailure (reason : String)
  /-- `PlaybookNotFound` for the given action. -/
  | playbookNotFound (action : String)
  /-- `InvalidParameterValue` naming the unsupported root-device hints. -/
  | invalidParameterValue (advanced : List (String × String))
  /-- Python `ValueError`. -/
  | valueError
  /-- Exception from a power or network collaborator call. -/
  | externalFailure (msg : String)
  /-- Re-raise performed by `agent_base.log_and_raise_deployment_error`. -/
  | deploymentError
deriving DecidableEq, Repr

/-- `_get_node_ip_dhcp`: fail on zero addresses, fail on more than one,
otherwise return the single address. -/
def getNodeIpDhcp (ip_addrs : List String) : Except Err String :=
  if ip_addrs.isEmpty then .error .failedToGetIPAddressOnPort
  else if ip_addrs.length > 1 then
    .error (.instanceDeployFailure
      "Ansible driver does not support multiple IP addresses during deploy or cleaning")
  else .ok (ip_addrs.headD "")

/-- `_get_node_ip_heartbeat`: host portion of the recorded callback URL,
defaulting the missing record to the empty string. -/
def getNodeIpHeartbeat (dii : DriverInternalInfo) : String :=
  splitColonHead (pyNetloc (dii.agent_url.getD ""))

/-- `_get_node_ip`: mode toggle between callback parsing and DHCP lookup. -/
def getNodeIp (cfg : Config) (env : Env) (node : Node) : Except Err String :=
  if cfg.use_ramdisk_callback then .ok (getNodeIpHeartbeat node.driver_internal_info)
  else getNodeIpDhcp env.dhcp_addresses

def DEFAULT_PLAYBOOKS : List (String × String) :=
  [("deploy", "deploy.yaml"), ("shutdown", "shutdown.yaml"), ("clean", "clean.yaml")]

/-- `_parse_ansible_driver_info`: playbook, user and key for an action. -/
def parseAnsibleDriverInfo (node : Node) (action : String) :
    Except Err (String × String × Option String) :=
  let user := (node.driver_info.lookup "ansible_deploy_username").getD "ansible"
  let key := node.driver_info.lookup "ansible_deploy_key_file"
  let playbook :=
    match node.driver_info.lookup ("ansible_" ++ action ++ "_playbook") with
    | some p => some p
    | none => DEFAULT_PLAYBOOKS.lookup action
  match playbook with
  | none => .error (.playbookNotFound action)
  | some p => if p = "" then .error (.playbookNotFound action) else .ok (p, user, key)

def Mi : Nat := 1048576

/-- `_calculate_memory_req`: image size (external lookup) in whole MiB plus
the configured padding. -/
def calculateMemoryReq (cfg : Config) (env : Env) : Int :=
  Int.ofNat (env.image_size / Mi) + cfg.extra_memory

def getConfigdrivePath (tempdir basename : String) : String :=
  tempdir ++ "/" ++ basename ++ ".cndrive"

/-- Variable tree assembled for one invocation (keys of the dict built by
`_prepare_variables`, plus the `partition_info` merged in by
`_ansible_deploy`). -/
structure Variables where
  image : List (String × PyVal)
  configdrive : Option (String × String) := none
  root_device_hints : Option (List (String × HVal)) := none
  partition_info : Option PartitionInfo := none
deriving DecidableEq, Repr

/-- `_prepare_variables`: image namespace copy with `mem_req` and checksum
normalization, config-drive reference, root-device hints.  (The config-drive
scratch-file write is reflected only through the returned location; a
non-string checksum is passed through, where Python would raise.) -/
def prepareVariables (cfg : Config) (env : Env) (node : Node) : Except Err Variables :=
  let i_info := node.instance_info
  let image0 := i_info.filterMap (fun p =>
    if strStartsWith p.1 "image_" then some (p.1.drop 6, p.2) else none)
  let image1 := assocSet image0 "mem_req" (.vint (calculateMemoryReq cfg env))
  let image2 :=
    match image1.lookup "checksum" with
    | some (.vstr c) =>
      if c ≠ "" && !(strContainsChar c ':') then assocSet image1 "checksum" (.vstr ("md5:" ++ c))
      else image1
    | _ => image1
  let configdrive :=
    match i_info.lookup "configdrive" with
    | some (.vstr c) =>
      if c ≠ "" then
        if pyScheme c = "http" || pyScheme c = "https" then some ("url", c)
        else some ("file", getConfigdrivePath cfg.tempdir node.uuid)
      else none
    | _ => none
  match parseRootDeviceHints node.root_device with
  | .error (.unsupported a) => .error (.invalidParameterValue a)
  | .error .valueError => .error .valueError
  | .ok hints =>
    .ok { image := image2
          configdrive := configdrive
          root_device_hints := if hints ≠ [] then some hints else none }

structure HostVar where
  name : String
  ip : String
  user : String
  extra : String
deriving DecidableEq, Repr

/-- Argument passed as `-e` to the external tool: the `nodes` list merged
with the operation variables (absent for the cleaning invocations). -/
structure ExtraVars where
  nodes : List HostVar
  vars : Option Variables := none
deriving DecidableEq, Repr

/-- `_prepare_extra_vars`. -/
def prepareExtraVars (host_list : List (String × String × String × String))
    (varTree : Option Variables) : ExtraVars :=
  { nodes := host_list.map (fun h =>
      { name := h.1, ip := h.2.1, user := h.2.2.1, extra := h.2.2.2 })
    vars := varTree }

/-- Trace of collaborator calls performed by an operation. -/
inductive Event where
  | powerAction (state : String)
  | dhcpLookup
  | runPlaybook (playbook : String) (extra_vars : ExtraVars) (key : Option String)
      (tags : List String) (notags : List String)
  | setFailedState (collect_logs : Bool)
  | setBootDevice (device : String) (persistent : Bool)
  | cleanUpRamdisk
  | removeProvisioningNetwork
  | configureTenantNetworks
  | processEvent (ev : String)
deriving DecidableEq, Repr

/-- Failure translation of `_run_playbook`: a subprocess error is re-raised
as `InstanceDeployFailure`. -/
def runPlaybookResult (r : Except String Unit) : Except Err Unit :=
  match r with
  | .ok _ => .ok ()
  | .error e => .error (.instanceDeployFailure e)

/-- `AnsibleDeploy._ansible_deploy`: assemble the variable tree and invoke
the deploy playbook; `wait` is skipped only in callback mode. -/
def ansibleDeploy (cfg : Config) (env : Env) (node : Node) (node_address : String) :
    List Event × Except Err Unit :=
  let notags : List String := if cfg.use_ramdisk_callback then ["wait"] else []
  match prepareVariables cfg env node with
  | .error e => ([], .error e)
  | .ok vars0 =>
    let varTree :=
      if !node.driver_internal_info.is_whole_disk_image then
        { vars0 with partition_info := some (parsePartitioningInfo node.part) }
      else vars0
    match parseAnsibleDriverInfo node "deploy" with
    | .error e => ([], .error e)
    | .ok (playbook, user, key) =>
      let extra_vars := prepareExtraVars [(node.uuid, node_address, user, node.extra)]
        (some varTree)
      ([.runPlaybook playbook extra_vars key [] notags],
       runPlaybookResult env.deploy_playbook_result)

/-! ## Convergence poller: the `retrying.retry` decorator in
`reboot_and_finish_deploy` -/

deriving instance DecidableEq for Except

structure PollOutcome (α : Type) where
  result : Except Unit α
  calls : Nat
  sleeps : Nat
deriving DecidableEq, Repr

/-- Semantics of `retrying.retry(stop_max_attempt_number, retry_on_result,
wait_fixed)`: call the wrapped function; accept the value when
`retry_on_result` rejects it is false; otherwise raise `RetryError` when the
budget is spent, else sleep the fixed interval and try again.  `calls` and
`sleeps` count the attempts and the fixed-interval sleeps performed. -/
def retryFixed {α : Type} (read : Nat → α) (retryOnResult : α → Bool) :
    Nat → Nat → PollOutcome α
  | 0, _ => ⟨.error (), 0, 0⟩
  | r + 1, idx =>
    let v := read idx
    if retryOnResult v then
      if r = 0 then ⟨.error (), 1, 0⟩
      else
        let rest := retryFixed read retryOnResult r (idx + 1)
        ⟨rest.result, rest.calls + 1, rest.sleeps + 1⟩
    else ⟨.ok v, 1, 0⟩

/-- `_wait_until_powered_off`: poll the power state until `POWER_OFF`, with
`post_deploy_get_power_state_retries + 1` total attempts. -/
def waitUntilPoweredOff (cfg : Config) (read : Nat → String) : PollOutcome String :=
  retryFixed read (fun state => state != POWER_OFF)
    (cfg.post_deploy_get_power_state_retries + 1) 0

/-! ## `reboot_and_finish_deploy`, `reboot_to_instance`, `deploy` -/

/-- Body of the inner `try` of `reboot_and_finish_deploy`: resolve the
address, invoke the shutdown playbook, poll for power-off. -/
def softPowerOff (cfg : Config) (env : Env) (node : Node) : List Event × Except Err Unit :=
  match getNodeIp cfg env node with
  | .error e => ([], .error e)
  | .ok node_address =>
    match parseAnsibleDriverInfo node "shutdown" with
    | .error e => ([], .error e)
    | .ok (playbook, user, key) =>
      let extra_vars := prepareExtraVars [(node.uuid, node_address, user, node.extra)] none
      let ev := [Event.runPlaybook playbook extra_vars key [] []]
      match runPlaybookResult env.shutdown_playbook_result with
      | .error e => (ev, .error e)
      | .ok _ =>
        match (waitUntilPoweredOff cfg env.power_state_reads).result with
        | .error _ => (ev, .error (.instanceDeployFailure "RetryError"))
        | .ok _ => (ev, .ok ())

/-- `manager_utils.node_power_action` as an event plus collaborator
outcome. -/
def nodePowerAction (r : Except String Unit) (state : String) :
    List Event × Except Err Unit :=
  ([.powerAction state],
   match r with
   | .ok _ => .ok ()
   | .error e => .error (.externalFailure e))

/-- `AnsibleDeploy.reboot_and_finish_deploy`: soft in-band shutdown with
forced out-of-band fallback (unless `deploy_forces_oob_reboot`), then
network swap and power-on; any exception in the outer block becomes the
fatal deployment error, and only full success reaches
`process_event('done')`. -/
def rebootAndFinishDeploy (cfg : Config) (env : Env) (node : Node) :
    List Event × Except Err Unit :=
  let oob := boolFromString (node.driver_info.lookup "deploy_forces_oob_reboot")
  let inner : List Event × Except Err Unit :=
    if !oob then
      match softPowerOff cfg env node with
      | (sev, .ok _) => (sev, .ok ())
      | (sev, .error _) =>
        let (pev, pres) := nodePowerAction env.power_off_result POWER_OFF
        (sev ++ pev, pres)
    else nodePowerAction env.power_off_result POWER_OFF
  match inner with
  | (ev, .error _) => (ev, .error .deploymentError)
  | (ev, .ok _) =>
    match env.remove_provisioning_result with
    | .error _ => (ev ++ [.removeProvisioningNetwork], .error .deploymentError)
    | .ok _ =>
      match env.configure_tenant_result with
      | .error _ =>
        (ev ++ [.removeProvisioningNetwork, .configureTenantNetworks], .error .deploymentError)
      | .ok _ =>
        match env.power_on_result with
        | .error _ =>
          (ev ++ [.removeProvisioningNetwork, .configureTenantNetworks,
                  .powerAction POWER_ON], .error .deploymentError)
        | .ok _ =>
          (ev ++ [.removeProvisioningNetwork, .configureTenantNetworks,
                  .powerAction POWER_ON, .processEvent "done"], .ok ())

/-- `AnsibleDeploy.reboot_to_instance`: persistent disk boot, the
shutdown-and-reboot sequence, then ramdisk cleanup. -/
def rebootToInstance (cfg : Config) (env : Env) (node : Node) :
    List Event × Except Err Unit :=
  let ev0 := [Event.setBootDevice "disk" true]
  match rebootAndFinishDeploy cfg env node with
  | (evF, .error e) => (ev0 ++ evF, .error e)
  | (evF, .ok _) => (ev0 ++ evF ++ [.cleanUpRamdisk], .ok ())

/-- `AnsibleDeploy.deploy`: reboot, then either the async-wait return
(callback mode) or the synchronous DHCP-resolve / deploy / reboot sequence;
the tool-invocation failure path sets the failed state with
`collect_logs=False` and returns `None`. -/
def deploy (cfg : Config) (env : Env) (node : Node) :
    List Event × Except Err (Option String) :=
  let ev0 := [Event.powerAction REBOOT]
  if cfg.use_ramdisk_callback then (ev0, .ok (some DEPLOYWAIT))
  else
    match getNodeIpDhcp env.dhcp_addresses with
    | .error e => (ev0 ++ [.dhcpLookup], .error e)
    | .ok ip_addr =>
      match ansibleDeploy cfg env node ip_addr with
      | (evA, .error _) => (ev0 ++ [.dhcpLookup] ++ evA ++ [.setFailedState false], .ok none)
      | (evA, .ok _) =>
        match rebootToInstance cfg env node with
        | (evR, rR) =>
          (ev0 ++ [.dhcpLookup] ++ evA ++ evR, rR.map (fun _ => some DEPLOYDONE))

/-! ## Theorems -/

/-- C6: DHCP-mode address resolution fails when zero addresses are leased to
the node's ports and fails when more than one address is leased (it never
selects one of multiple addresses arbitrarily); it returns the single
address exactly when exactly one exists. -/
theorem dhcp_single_address_resolution (l : List String) :
    (l = [] → getNodeIpDhcp l = .error .failedToGetIPAddressOnPort) ∧
    (1 < l.length → ∃ msg, getNodeIpDhcp l = .error (.instanceDeployFailure msg)) ∧
    (∀ a, l = [a] → getNodeIpDhcp l = .ok a) ∧
    (∀ a, getNodeIpDhcp l = .ok a → l = [a]) := by
  match l with
  | [] => simp [getNodeIpDhcp]
  | [a] => simp [getNodeIpDhcp]
  | a :: b :: rest =>
    refine ⟨by simp, fun _ =>
      ⟨"Ansible driver does not support multiple IP addresses during deploy or cleaning",
        ?_⟩, by simp, fun x hx => ?_⟩ <;>
      simp [getNodeIpDhcp] at *

theorem dhcp_single_address_resolution_witness :
    getNodeIpDhcp ["192.0.2.10"] = .ok "192.0.2.10" :=
  (dhcp_single_address_resolution ["192.0.2.10"]).2.2.1 "192.0.2.10" rfl

/-- C7 counterexample: with no recorded callback URL the resolver does not
fail; it returns the empty string.  (In the embedding its type is `String`,
not `Except`: the source function contains no raise at all.) -/
theorem heartbeat_missing_callback_counterexample :
    getNodeIpHeartbeat {} = "" := by decide

/-- C7 (amended): when no callback URL is recorded the resolver returns the
empty string rather than failing; when a callback URL is recorded it
returns the host portion of that URL. -/
theorem heartbeat_address_resolution :
    (∀ dii : DriverInternalInfo, dii.agent_url = none → getNodeIpHeartbeat dii = "") ∧
    getNodeIpHeartbeat { agent_url := some "http://192.168.122.5:9999/v1/lookup" } =
      "192.168.122.5" := by
  refine ⟨fun dii h => ?_, by decide⟩
  simp only [getNodeIpHeartbeat, h]
  decide

theorem heartbeat_address_resolution_witness :
    getNodeIpHeartbeat { agent_url := none, is_whole_disk_image := true } = "" :=
  heartbeat_address_resolution.1 { agent_url := none, is_whole_disk_image := true } rfl

/-! ### C8 helper lemmas -/

lemma retryFixed_success {α : Type} (read : Nat → α) (retryOn : α → Bool) :
    ∀ (n budget idx : Nat), n + 1 ≤ budget →
      (∀ j, j < n → retryOn (read (idx + j)) = true) →
      retryOn (read (idx + n)) = false →
      retryFixed read retryOn budget idx = ⟨.ok (read (idx + n)), n + 1, n⟩ := by
  intro n
  induction n with
  | zero =>
    intro budget idx hb _ hlast
    match budget, hb with
    | b + 1, _ =>
      simp only [retryFixed]
      simp only [Nat.add_zero] at hlast
      simp [hlast]
  | succ n ih =>
    intro budget idx hb hfail hlast
    match budget, hb with
    | b + 1, hb =>
      have hb' : n + 1 ≤ b := by omega
      have h0 : retryOn (read idx) = true := by
        have := hfail 0 (Nat.succ_pos n)
        simpa using this
      have hrest : retryFixed read retryOn b (idx + 1) = ⟨.ok (read (idx + 1 + n)), n + 1, n⟩ := by
        refine ih b (idx + 1) hb' (fun j hj => ?_) ?_
        · have := hfail (j + 1) (by omega)
          have harg : idx + (j + 1) = idx + 1 + j := by omega
          rwa [harg] at this
        · have harg : idx + (n + 1) = idx + 1 + n := by omega
          rwa [harg] at hlast
      have hbne : b ≠ 0 := by omega
      simp only [retryFixed, h0, if_true, hbne, if_false, hrest]
      have harg : idx + 1 + n = idx + (n + 1) := by omega
      simp [harg]

lemma retryFixed_exhaust {α : Type} (read : Nat → α) (retryOn : α → Bool)
    (hall : ∀ j, retryOn (read j) = true) :
    ∀ (budget idx : Nat), 1 ≤ budget →
      retryFixed read retryOn budget idx = ⟨.error (), budget, budget - 1⟩ := by
  intro budget
  induction budget with
  | zero => intro idx h; omega
  | succ b ih =>
    intro idx _
    by_cases hb : b = 0
    · subst hb
      simp [retryFixed, hall idx]
    · have hrest := ih (idx + 1) (by omega)
      simp only [retryFixed, hall idx, if_true, hb, if_false, hrest]
      simp
      omega

/-- C8: the convergence poll succeeds after exactly `n + 1` calls of the
read function with no sleep after the successful call, when the read
function first returns the target on call `n + 1` within the configured
attempt budget (`post_deploy_get_power_state_retries + 1`); if the read
function never returns the target, the poll fails only after the full
budget is exhausted. -/
theorem convergence_poller_bounds (cfg : Config) (read : Nat → String) (n : Nat) :
    (n + 1 ≤ cfg.post_deploy_get_power_state_retries + 1 →
      (∀ j, j < n → read j ≠ POWER_OFF) → read n = POWER_OFF →
      waitUntilPoweredOff cfg read = ⟨.ok POWER_OFF, n + 1, n⟩) ∧
    ((∀ j, read j ≠ POWER_OFF) →
      waitUntilPoweredOff cfg read =
        ⟨.error (), cfg.post_deploy_get_power_state_retries + 1,
          cfg.post_deploy_get_power_state_retries⟩) := by
  constructor
  · intro hb hfail hlast
    have h := retryFixed_success read (fun state => state != POWER_OFF) n
      (cfg.post_deploy_get_power_state_retries + 1) 0 hb
      (fun j hj => by simpa using hfail j hj) (by simpa using hlast)
    simp only [Nat.zero_add] at h
    rw [waitUntilPoweredOff, h, hlast]
  · intro hnever
    have h := retryFixed_exhaust read (fun state => state != POWER_OFF)
      (fun j => by simpa using hnever j)
      (cfg.post_deploy_get_power_state_retries + 1) 0 (by omega)
    rw [waitUntilPoweredOff, h]
    simp

theorem convergence_poller_bounds_witness :
    waitUntilPoweredOff {} (fun i => if i < 2 then POWER_ON else POWER_OFF) =
      ⟨.ok POWER_OFF, 3, 2⟩ :=
  (convergence_poller_bounds {} (fun i => if i < 2 then POWER_ON else POWER_OFF) 2).1
    (by decide) (by decide) (by decide)

/-! ### C4: root-device hints -/

/-- Hints that `_parse_root_device_hints` classifies as advanced: string
values carrying neither the `== ` nor the `s== ` sigil. -/
def advancedOf (hints : List (String × HVal)) : List (String × String) :=
  hints.filterMap (fun p =>
    match p.2 with
    | .s str =>
      if !(strStartsWith str "== ") && !(strStartsWith str "s== ") then some (p.1, str)
      else none
    | _ => none)

/-- Every numeric-equality hint value parses as an integer (guaranteed for
the output of the external hint normalizer feeding this function). -/
def goodHintInts (hints : List (String × HVal)) : Bool :=
  hints.all (fun p =>
    match p.2 with
    | .s str => !(strStartsWith str "== ") || (pyInt (str.drop 3)).isSome
    | _ => true)

/-- Expected translation of a single supported hint: `== ` values become
integers, `s== ` values are percent-decoded, non-strings pass through. -/
def translateHint (p : String × HVal) : String × HVal :=
  match p.2 with
  | .s str =>
    if strStartsWith str "== " then (p.1, .i ((pyInt (str.drop 3)).getD 0))
    else if strStartsWith str "s== " then (p.1, .s (pyUnquote (str.drop 4)))
    else p
  | _ => p

/-- Translation of the supported hints only, dropping the advanced ones. -/
def keepTranslate (p : String × HVal) : Option (String × HVal) :=
  match p.2 with
  | .s str =>
    if strStartsWith str "== " then some (p.1, .i ((pyInt (str.drop 3)).getD 0))
    else if strStartsWith str "s== " then some (p.1, .s (pyUnquote (str.drop 4)))
    else none
  | _ => some p

lemma hintsLoop_spec (hints : List (String × HVal)) (h : goodHintInts hints = true) :
    hintsLoop hints = .ok (hints.filterMap keepTranslate, advancedOf hints) := by
  induction hints with
  | nil => rfl
  | cons p rest ih =>
    obtain ⟨hint, v⟩ := p
    rw [goodHintInts, List.all_cons, Bool.and_eq_true] at h
    have ihr := ih h.2
    cases v with
    | s str =>
      by_cases h1 : strStartsWith str "== " = true
      · have hs : (pyInt (str.drop 3)).isSome := by
          have := h.1
          simp only [h1] at this
          simpa using this
        obtain ⟨z, hz⟩ := Option.isSome_iff_exists.mp hs
        simp [hintsLoop, h1, hz, ihr, advancedOf, keepTranslate, List.filterMap_cons]
      · by_cases h2 : strStartsWith str "s== " = true
        · simp [hintsLoop, h1, h2, ihr, advancedOf, keepTranslate, List.filterMap_cons]
        · simp [hintsLoop, h1, h2, ihr, advancedOf, keepTranslate, List.filterMap_cons]
    | i z => simp [hintsLoop, ihr, advancedOf, keepTranslate, List.filterMap_cons]
    | b x => simp [hintsLoop, ihr, advancedOf, keepTranslate, List.filterMap_cons]

lemma keepTranslate_eq_map_of_no_advanced (hints : List (String × HVal))
    (h : advancedOf hints = []) :
    hints.filterMap keepTranslate = hints.map translateHint := by
  induction hints with
  | nil => rfl
  | cons p rest ih =>
    obtain ⟨hint, v⟩ := p
    rw [advancedOf, List.filterMap_cons] at h
    cases v with
    | s str =>
      by_cases h1 : strStartsWith str "== " = true
      · simp only [h1] at h
        simp [keepTranslate, translateHint, h1, List.filterMap_cons,
          ih (by simpa [advancedOf] using h)]
      · by_cases h2 : strStartsWith str "s== " = true
        · simp only [h1, h2] at h
          simp [keepTranslate, translateHint, h1, h2, List.filterMap_cons,
            ih (by simpa [advancedOf] using h)]
        · simp [h1, h2] at h
    | i z =>
      simp only at h
      simp [keepTranslate, translateHint, List.filterMap_cons,
        ih (by simpa [advancedOf] using h)]
    | b x =>
      simp only at h
      simp [keepTranslate, translateHint, List.filterMap_cons,
        ih (by simpa [advancedOf] using h)]

/-- C4: a string hint with the `== ` sigil is parsed to an integer, one with
the `s== ` sigil is percent-decoded, a non-string hint passes through
unchanged, and any hint with another operator fails the whole parse with an
unsupported-hint error naming every offending hint. -/
theorem root_device_hints_translation (hints : List (String × HVal))
    (hgood : goodHintInts hints = true) :
    (advancedOf hints = [] →
      parseRootDeviceHints hints = .ok (hints.map translateHint)) ∧
    (advancedOf hints ≠ [] →
      parseRootDeviceHints hints = .error (.unsupported (advancedOf hints))) := by
  have hloop := hintsLoop_spec hints hgood
  constructor
  · intro hadv
    have hmap := keepTranslate_eq_map_of_no_advanced hints hadv
    match hints, hloop with
    | [], _ => rfl
    | q :: qs, hloop =>
      simp [parseRootDeviceHints, parseRootDeviceHintsList, hloop, hadv, hmap]
  · intro hadv
    match hints with
    | [] => simp [advancedOf] at hadv
    | q :: qs =>
      simp [parseRootDeviceHints, parseRootDeviceHintsList, hloop, hadv]

theorem root_device_hints_translation_witness :
    parseRootDeviceHints
        [("size", .s ">= 40"), ("model", .s "<in> x"), ("wwn", .s "s== w%20y")] =
      .error (.unsupported [("size", ">= 40"), ("model", "<in> x")]) :=
  (root_device_hints_translation
      [("size", .s ">= 40"), ("model", .s "<in> x"), ("wwn", .s "s== w%20y")]
      (by decide)).2 (by decide)

/-- C5: the constructed partition plan always places the root partition
last; for a GPT disk label the first partition is the small `bios_grub`
boot-loader partition; for an MSDOS disk label the root partition carries
the boot flag and no boot-loader partition is included. -/
theorem partition_plan_invariants (info : PartInput) :
    ((parsePartitioningInfo info).partitions.getLast?.map Partition.name = some "root") ∧
    ((parsePartitioningInfo info).label = "gpt" →
      (parsePartitioningInfo info).partitions.head? = some biosPartition) ∧
    ((parsePartitioningInfo info).label = "msdos" →
      (parsePartitioningInfo info).partitions.getLast? =
        some { name := "root", size := info.root_mb, unit := "MiB",
               flags := [("boot", "yes")] } ∧
      ∀ p ∈ (parsePartitioningInfo info).partitions, p.name ≠ "bios") := by
  obtain ⟨dl, emb, efmt, pe, smb, cd, rmb⟩ := info
  refine ⟨?_, ?_, ?_⟩
  · simp only [parsePartitioningInfo]
    simp [List.getLast?_concat]
  · intro hg
    rcases dl with _ | s
    · simp [parsePartitioningInfo] at hg
    · by_cases hs : s = ""
      · simp [parsePartitioningInfo, hs] at hg
      · have hgpt : s = "gpt" := by simpa [parsePartitioningInfo, hs] using hg
        subst hgpt
        simp only [parsePartitioningInfo]
        split_ifs <;> simp_all
  · intro hm
    rcases dl with _ | s
    · constructor
      · simp only [parsePartitioningInfo]
        simp [List.getLast?_concat]
      · intro p hp
        simp only [parsePartitioningInfo] at hp
        split_ifs at hp <;> simp_all <;> aesop
    · by_cases hs : s = ""
      · subst hs
        constructor
        · simp only [parsePartitioningInfo]
          simp [List.getLast?_concat]
        · intro p hp
          simp only [parsePartitioningInfo] at hp
          split_ifs at hp <;> simp_all <;> aesop
      · have hms : s = "msdos" := by
          simpa [parsePartitioningInfo, hs] using hm
        subst hms
        constructor
        · simp only [parsePartitioningInfo]
          simp [List.getLast?_concat]
        · intro p hp
          simp only [parsePartitioningInfo] at hp
          split_ifs at hp <;> simp_all <;> aesop

theorem partition_plan_invariants_witness :
    (parsePartitioningInfo
        { disk_label := some "gpt", swap_mb := 512, root_mb := 4096 }).partitions.head? =
      some biosPartition :=
  (partition_plan_invariants { disk_label := some "gpt", swap_mb := 512, root_mb := 4096 }).2.1
    (by decide)

/-! ### C2, C3, C10: clean-step loading -/

/-- Python falsiness of a step's `name` entry (absent or empty). -/
def stepNameFalsy (s : StepDecl) : Bool :=
  match s.name with
  | none => true
  | some n => n = ""

/-- A step that offends the loading rules of the spec: missing name,
missing interface, or a required argument without a bound value. -/
def stepOffends (s : StepDecl) : Bool :=
  stepNameFalsy s || s.interface.isNone ||
    s.args.any (fun a => a.2.required && a.2.value.isNone)

lemma stepMissingPairs_ne_nil (s : StepDecl) :
    (stepMissingPairs s ≠ []) ↔ stepOffends s = true := by
  obtain ⟨nm, itf, pr, args⟩ := s
  cases nm with
  | none => simp [stepMissingPairs, stepOffends, stepNameFalsy]
  | some n =>
    by_cases hn : n = ""
    · simp [stepMissingPairs, stepOffends, stepNameFalsy, hn]
    · cases itf with
      | none => simp [stepMissingPairs, stepOffends, stepNameFalsy, hn]
      | some i =>
        simp only [stepMissingPairs, stepOffends, stepNameFalsy, hn]
        simp [List.filterMap_eq_nil_iff, List.any_eq_true]

lemma missingOf_ne_nil_iff (doc : List StepDecl) :
    missingOf doc ≠ [] ↔ doc.any stepOffends = true := by
  rw [missingOf, List.any_eq_true]
  constructor
  · intro h
    obtain ⟨x, hx⟩ := List.exists_mem_of_ne_nil _ h
    obtain ⟨s, hs, hxs⟩ := List.mem_flatMap.mp hx
    exact ⟨s, hs, (stepMissingPairs_ne_nil s).mp (List.ne_nil_of_mem hxs)⟩
  · rintro ⟨s, hs, hoff⟩
    intro hnil
    have hsub : stepMissingPairs s = [] := by
      rcases hp : stepMissingPairs s with _ | ⟨x, xs⟩
      · rfl
      · exact absurd (List.mem_flatMap.mpr ⟨s, hs, hp ▸ List.mem_cons_self x xs⟩)
          (hnil ▸ List.not_mem_nil x)
    have hno : ¬ stepOffends s = true := by
      rw [← stepMissingPairs_ne_nil]
      simp [hsub]
    exact hno hoff

lemma validate_malformed_iff (doc : List StepDecl) (l : List (String × String)) :
    validateCleanSteps doc = .error (.malformed l) ↔
      (missingOf doc ≠ [] ∧ l = missingOf doc) := by
  rw [validateCleanSteps]
  split_ifs with h1 h2 <;> simp_all [eq_comm]

lemma getCleanSteps_error_iff (doc : List StepDecl) (iface : Option String)
    (override : List (String × Int)) (e : CleanErr) :
    getCleanSteps doc iface override = .error e ↔ validateCleanSteps doc = .error e := by
  rw [getCleanSteps]
  rcases h : validateCleanSteps doc with e2 | u
  · simp [h]
  · simp [h]

/-- C2 counterexample: (i) a document with two identical well-formed steps
fails loading although no step is missing a name, an interface, or a
required value — refuting the only-if direction; (ii) a document whose one
step is missing both its name and its interface yields an error naming only
the `(undefined, name)` pair, not the missing-interface pair — refuting the
complete-enumeration part. -/
theorem clean_steps_validation_counterexample :
    (getCleanSteps
        [{ name := some "a", interface := some "deploy" },
         { name := some "a", interface := some "deploy" }] none [] = .error .duplicates ∧
      ([{ name := some "a", interface := some "deploy" },
        { name := some "a", interface := some "deploy" }] :
          List StepDecl).any stepOffends = false) ∧
    (getCleanSteps [({} : StepDecl)] none [] =
        .error (.malformed [("undefined", "name")]) ∧
      ({} : StepDecl).interface = none ∧
      ("undefined", "interface") ∉ [(("undefined" : String), ("name" : String))]) := by
  refine ⟨⟨?_, ?_⟩, ?_, ?_, ?_⟩ <;> decide

/-- C2 (amended): loading fails with the malformed-step error exactly when
at least one step is missing a name, an interface, or a required argument's
value (independently of the interface filter); the error enumerates every
offending `(name, field)` pair across steps, except that a step missing its
name contributes only the `(undefined, name)` pair — its interface and
argument checks are skipped. -/
theorem clean_steps_validation (doc : List StepDecl) (iface : Option String)
    (override : List (String × Int)) :
    ((∃ l, getCleanSteps doc iface override = .error (.malformed l)) ↔
      doc.any stepOffends = true) ∧
    (∀ l, getCleanSteps doc iface override = .error (.malformed l) →
      ∀ s ∈ doc,
        (stepNameFalsy s = true → ("undefined", "name") ∈ l) ∧
        (stepNameFalsy s = false →
          (s.interface = none → (s.name.getD "", "interface") ∈ l) ∧
          (∀ an ad, (an, ad) ∈ s.args → ad.required = true → ad.value = none →
            (s.name.getD "", an ++ ".value") ∈ l))) := by
  constructor
  · constructor
    · rintro ⟨l, hl⟩
      have := (validate_malformed_iff doc l).mp ((getCleanSteps_error_iff doc iface override _).mp hl)
      exact (missingOf_ne_nil_iff doc).mp this.1
    · intro hoff
      refine ⟨missingOf doc, (getCleanSteps_error_iff doc iface override _).mpr ?_⟩
      exact (validate_malformed_iff doc _).mpr ⟨(missingOf_ne_nil_iff doc).mpr hoff, rfl⟩
  · intro l hl s hs
    obtain ⟨hne, rfl⟩ :=
      (validate_malformed_iff doc l).mp ((getCleanSteps_error_iff doc iface override _).mp hl)
    have hmem : ∀ x ∈ stepMissingPairs s, x ∈ missingOf doc := by
      intro x hx
      exact List.mem_flatMap.mpr ⟨s, hs, hx⟩
    obtain ⟨nm, itf, pr, args⟩ := s
    refine ⟨fun hfalsy => ?_, fun hnot => ⟨fun hitf => ?_, fun an ad had hreq hval => ?_⟩⟩
    · apply hmem
      cases nm with
      | none => simp [stepMissingPairs]
      | some n =>
        have : n = "" := by simpa [stepNameFalsy] using hfalsy
        simp [stepMissingPairs, this]
    · apply hmem
      cases nm with
      | none => simp [stepNameFalsy] at hnot
      | some n =>
        have hn : ¬(n = "") := by simpa [stepNameFalsy] using hnot
        subst hitf
        simp [stepMissingPairs, hn]
    · apply hmem
      cases nm with
      | none => simp [stepNameFalsy] at hnot
      | some n =>
        have hn : ¬(n = "") := by simpa [stepNameFalsy] using hnot
        simp only [stepMissingPairs, hn, if_false, Option.getD_some]
        refine List.mem_append_right _ (List.mem_filterMap.mpr ⟨(an, ad), had, ?_⟩)
        simp [hreq, hval]

theorem clean_steps_validation_witness :
    ∃ l, getCleanSteps [{ name := some "x" }] none [] = .error (.malformed l) :=
  (clean_steps_validation [{ name := some "x" }] none []).1.mpr (by decide)

lemma buildCleanStep_interface (override : List (String × Int)) (p : StepDecl) :
    (buildCleanStep override p).interface = p.interface.getD "" := rfl

lemma filterMap_interface_filter (override : List (String × Int)) (i : String) :
    ∀ doc : List StepDecl,
      doc.filterMap (fun p =>
        if i ≠ p.interface.getD "" then none else some (buildCleanStep override p)) =
      (doc.map (buildCleanStep override)).filter (fun st => st.interface == i) := by
  intro doc
  induction doc with
  | nil => rfl
  | cons p rest ih =>
    rw [List.filterMap_cons, List.map_cons, List.filter_cons]
    by_cases hc : i = p.interface.getD ""
    · rw [if_neg (by simp [hc]), ih]
      have hb : ((buildCleanStep override p).interface == i) = true := by
        simp [buildCleanStep_interface, hc]
      rw [hb]
      simp
    · rw [if_pos hc, ih]
      have hb : ((buildCleanStep override p).interface == i) = false := by
        simp only [buildCleanStep_interface, beq_eq_false_iff_ne, ne_eq]
        exact fun h => hc h.symm
      rw [hb]
      simp

/-- C3: a document with duplicated step names fails loading with the
duplicate-name error, regardless of the interfaces the duplicated steps
declare; the optional interface filter restricts only the returned step
list, and the validation outcome is identical with and without a filter. -/
theorem clean_steps_duplicates_and_filter (doc : List StepDecl) (iface : Option String)
    (override : List (String × Int)) (i : String) :
    (doc.any stepOffends = false →
      (doc.map (fun s => s.name.getD "")).dedup.length ≠ doc.length →
      getCleanSteps doc iface override = .error .duplicates) ∧
    (getCleanSteps doc (some i) override =
      (getCleanSteps doc none override).map
        (fun steps => steps.filter (fun st => st.interface == i))) ∧
    (∀ e, getCleanSteps doc iface override = .error e ↔
      validateCleanSteps doc = .error e) := by
  refine ⟨fun hoff hdup => ?_, ?_, fun e => getCleanSteps_error_iff doc iface override e⟩
  · have hmiss : missingOf doc = [] := by
      by_contra hne
      have hany := (missingOf_ne_nil_iff doc).mp hne
      rw [hany] at hoff
      cases hoff
    have hval : validateCleanSteps doc = .error .duplicates := by
      rw [validateCleanSteps]
      simp [hmiss, hdup]
    rw [getCleanSteps, hval]
  · rcases hv : validateCleanSteps doc with e | u
    · simp only [getCleanSteps, hv]
      rfl
    · simp only [getCleanSteps, hv]
      rw [Except.map]
      congr 1
      have h1 : (doc.filterMap (fun p =>
          match (none : Option String) with
          | some j => if j ≠ p.interface.getD "" then none
                      else some (buildCleanStep override p)
          | none => some (buildCleanStep override p))) =
          doc.map (buildCleanStep override) := by
        simp [List.filterMap_eq_map_iff_forall_eq_some]
      rw [h1, ← filterMap_interface_filter override i doc]

/-- C3 witness: two otherwise well-formed steps sharing the name `a` but
declaring different interfaces fail loading with the duplicate-name
error, under an interface filter. -/
theorem clean_steps_duplicates_and_filter_witness :
    getCleanSteps
      [{ name := some "a", interface := some "deploy" },
       { name := some "a", interface := some "power" }] (some "deploy") [] =
      .error .duplicates :=
  (clean_steps_duplicates_and_filter
    [{ name := some "a", interface := some "deploy" },
     { name := some "a", interface := some "power" }] (some "deploy") [] "deploy").1
    (by decide) (by decide)

/-- C10: every step returned by a successful load has `abortable = False`
and an argument mapping that binds each declared argument name to its
declared value, or to `None` when the argument declares no value. -/
theorem clean_steps_result_invariants (doc : List StepDecl) (iface : Option String)
    (override : List (String × Int)) (steps : List CleanStep)
    (h : getCleanSteps doc iface override = .ok steps) :
    ∀ st ∈ steps, st.abortable = false ∧
      ∃ p ∈ doc, p.name.getD "" = st.step ∧
        st.args = p.args.map (fun a => (a.1, a.2.value)) := by
  rw [getCleanSteps] at h
  rcases hv : validateCleanSteps doc with e | u
  · rw [hv] at h
    cases h
  · rw [hv] at h
    simp only [Except.ok.injEq] at h
    subst h
    intro st hst
    obtain ⟨p, hp, hf⟩ := List.mem_filterMap.mp hst
    have hst_eq : st = buildCleanStep override p := by
      rcases iface with _ | j
      · simpa using hf.symm
      · by_cases hj : j ≠ p.interface.getD ""
        · simp [hj] at hf
        · simp only [hj, if_false] at hf
          exact (Option.some.injEq _ _ ▸ hf).symm
    subst hst_eq
    exact ⟨rfl, p, hp, rfl, rfl⟩

def c10Step : StepDecl :=
  { name := some "s", interface := some "deploy",
    args := [("x", { required := true, value := some "1" }), ("y", {})] }

theorem clean_steps_result_invariants_witness :
    (buildCleanStep [] c10Step).abortable = false ∧
    ∃ p ∈ [c10Step], p.name.getD "" = (buildCleanStep [] c10Step).step ∧
      (buildCleanStep [] c10Step).args = p.args.map (fun a => (a.1, a.2.value)) :=
  clean_steps_result_invariants [c10Step] none [] [buildCleanStep [] c10Step] rfl
    (buildCleanStep [] c10Step) (List.mem_singleton_self _)

/-! ### C9: reboot_and_finish_deploy error handling -/

lemma softPowerOff_no_processEvent (cfg : Config) (env : Env) (node : Node) (e : String) :
    Event.processEvent e ∉ (softPowerOff cfg env node).1 := by
  rw [softPowerOff]
  rcases getNodeIp cfg env node with e1 | addr
  · simp
  · rcases parseAnsibleDriverInfo node "shutdown" with e2 | ⟨pb, user, key⟩
    · simp
    · rcases runPlaybookResult env.shutdown_playbook_result with e3 | u
      · simp
      · rcases (waitUntilPoweredOff cfg env.power_state_reads).result with e4 | v <;> simp

/-- C9: when per-machine configuration does not force out-of-band power-off,
any failure of the soft in-band shutdown path is non-fatal and is followed
by a forced out-of-band power-off after which the sequence completes;
whereas any exception from the surrounding block (power-off, provisioning
network release, tenant-network attach, power-on) is fatal and surfaces as
the deployment-error signal; the event state advances to done exactly on
success. -/
theorem reboot_finish_error_paths (cfg : Config) (env : Env) (node : Node) :
    (∀ e, boolFromString (node.driver_info.lookup "deploy_forces_oob_reboot") = false →
      (softPowerOff cfg env node).2 = .error e →
      env.power_off_result = .ok () → env.remove_provisioning_result = .ok () →
      env.configure_tenant_result = .ok () → env.power_on_result = .ok () →
      rebootAndFinishDeploy cfg env node =
        ((softPowerOff cfg env node).1 ++
          [.powerAction POWER_OFF, .removeProvisioningNetwork, .configureTenantNetworks,
           .powerAction POWER_ON, .processEvent "done"], .ok ())) ∧
    ((rebootAndFinishDeploy cfg env node).2 = .ok () ∨
      (rebootAndFinishDeploy cfg env node).2 = .error .deploymentError) ∧
    (∀ m, env.remove_provisioning_result = .error m →
      (rebootAndFinishDeploy cfg env node).2 = .error .deploymentError) ∧
    (∀ m, env.configure_tenant_result = .error m →
      (rebootAndFinishDeploy cfg env node).2 = .error .deploymentError) ∧
    (∀ m, env.power_on_result = .error m →
      (rebootAndFinishDeploy cfg env node).2 = .error .deploymentError) ∧
    (∀ m e, env.power_off_result = .error m →
      (boolFromString (node.driver_info.lookup "deploy_forces_oob_reboot") = true ∨
        (softPowerOff cfg env node).2 = .error e) →
      (rebootAndFinishDeploy cfg env node).2 = .error .deploymentError) ∧
    ((rebootAndFinishDeploy cfg env node).2 = .ok () →
      (rebootAndFinishDeploy cfg env node).1.getLast? = some (.processEvent "done")) ∧
    ((rebootAndFinishDeploy cfg env node).2 ≠ .ok () →
      Event.processEvent "done" ∉ (rebootAndFinishDeploy cfg env node).1) := by
  rcases hsp : softPowerOff cfg env node with ⟨sev, sres⟩
  have hnodone : Event.processEvent "done" ∉ sev := by
    have := softPowerOff_no_processEvent cfg env node "done"
    rwa [hsp] at this
  refine ⟨?_, ?_, ?_, ?_, ?_, ?_, ?_, ?_⟩
  · intro e hoob hserr hpo hrm hct hpon
    simp only [hsp] at hserr
    simp only [rebootAndFinishDeploy, hoob, hsp, hserr, nodePowerAction, hpo, hrm, hct, hpon]
    simp
  · cases hoob : boolFromString (node.driver_info.lookup "deploy_forces_oob_reboot") <;>
      rcases sres with e | u <;>
      rcases hpo : env.power_off_result with m | u2 <;>
      rcases hrm : env.remove_provisioning_result with m2 | u3 <;>
      rcases hct : env.configure_tenant_result with m3 | u4 <;>
      rcases hpon : env.power_on_result with m4 | u5 <;>
      simp [rebootAndFinishDeploy, hsp, nodePowerAction, hoob, hpo, hrm, hct, hpon]
  · intro m hm
    cases hoob : boolFromString (node.driver_info.lookup "deploy_forces_oob_reboot") <;>
      rcases sres with e | u <;>
      rcases hpo : env.power_off_result with m1 | u2 <;>
      simp [rebootAndFinishDeploy, hsp, nodePowerAction, hoob, hpo, hm]
  · intro m hm
    cases hoob : boolFromString (node.driver_info.lookup "deploy_forces_oob_reboot") <;>
      rcases sres with e | u <;>
      rcases hpo : env.power_off_result with m1 | u2 <;>
      rcases hrm : env.remove_provisioning_result with m2 | u3 <;>
      simp [rebootAndFinishDeploy, hsp, nodePowerAction, hoob, hpo, hrm, hm]
  · intro m hm
    cases hoob : boolFromString (node.driver_info.lookup "deploy_forces_oob_reboot") <;>
      rcases sres with e | u <;>
      rcases hpo : env.power_off_result with m1 | u2 <;>
      rcases hrm : env.remove_provisioning_result with m2 | u3 <;>
      rcases hct : env.configure_tenant_result with m3 | u4 <;>
      simp [rebootAndFinishDeploy, hsp, nodePowerAction, hoob, hpo, hrm, hct, hm]
  · intro m e hm hdisj
    rcases hdisj with hoob | hserr
    · rcases sres with e1 | u <;>
        simp [rebootAndFinishDeploy, hsp, nodePowerAction, hoob, hm]
    · simp only [hsp] at hserr
      cases hoob : boolFromString (node.driver_info.lookup "deploy_forces_oob_reboot") <;>
        simp [rebootAndFinishDeploy, hsp, nodePowerAction, hoob, hm, hserr]
  · intro hok
    cases hoob : boolFromString (node.driver_info.lookup "deploy_forces_oob_reboot") <;>
      rcases sres with e | u <;>
      rcases hpo : env.power_off_result with m1 | u2 <;>
      rcases hrm : env.remove_provisioning_result with m2 | u3 <;>
      rcases hct : env.configure_tenant_result with m3 | u4 <;>
      rcases hpon : env.power_on_result with m4 | u5 <;>
      simp_all [rebootAndFinishDeploy, hsp, nodePowerAction, List.getLast?_append]
  · intro hnok
    cases hoob : boolFromString (node.driver_info.lookup "deploy_forces_oob_reboot") <;>
      rcases sres with e | u <;>
      rcases hpo : env.power_off_result with m1 | u2 <;>
      rcases hrm : env.remove_provisioning_result with m2 | u3 <;>
      rcases hct : env.configure_tenant_result with m3 | u4 <;>
      rcases hpon : env.power_on_result with m4 | u5 <;>
      simp_all [rebootAndFinishDeploy, hsp, nodePowerAction]

/-- Collaborator outcomes with a failing shutdown playbook, for the C9
witness. -/
def envSoftFail : Env := { shutdown_playbook_result := .error "boom" }

theorem reboot_finish_error_paths_witness :
    rebootAndFinishDeploy {} envSoftFail {} =
      ((softPowerOff {} envSoftFail {}).1 ++
        [.powerAction POWER_OFF, .removeProvisioningNetwork, .configureTenantNetworks,
         .powerAction POWER_ON, .processEvent "done"], .ok ()) :=
  (reboot_finish_error_paths {} envSoftFail {}).1 (.instanceDeployFailure "boom")
    rfl rfl rfl rfl rfl rfl

/-! ### C1: synchronous deploy -/

/-- Configuration with the ramdisk callback disabled (synchronous mode). -/
def cfgSync : Config := { use_ramdisk_callback := false }

/-- Concrete node for the C1 counterexample: whole-disk image, forced
out-of-band reboot. -/
def nodeSyncC1 : Node :=
  { uuid := "n1",
    driver_info := [("deploy_forces_oob_reboot", "true")],
    instance_info := [("image_source", .vstr "img")],
    driver_internal_info := { is_whole_disk_image := true } }

/-- Collaborator outcomes for the C1 counterexample: exactly one DHCP
address, all operations succeeding. -/
def envSyncC1 : Env := { dhcp_addresses := ["10.0.0.5"] }

/-- Excluded-tag lists of the external-tool invocations in a trace. -/
def notagsOfTrace (evs : List Event) : List (List String) :=
  evs.filterMap (fun e =>
    match e with
    | .runPlaybook _ _ _ _ nt => some nt
    | _ => none)

/-- C1 counterexample: in synchronous mode a successful deploy performs
exactly one external-tool invocation, and its excluded-tag list is empty —
the `wait` tag is NOT excluded (the code excludes it only in callback
mode), contradicting the claim. -/
theorem deploy_sync_wait_tag_counterexample :
    notagsOfTrace (deploy cfgSync envSyncC1 nodeSyncC1).1 = [[]] ∧
    (deploy cfgSync envSyncC1 nodeSyncC1).2 = .ok (some DEPLOYDONE) ∧
    ([[]] : List (List String)) ≠ [["wait"]] := by
  refine ⟨?_, ?_, by decide⟩ <;> rfl

/-- C1 (amended): in synchronous mode with exactly one DHCP address, deploy
performs at most one external-tool invocation; the invocation carries the
assembled variable tree with an empty excluded-tag list (the wait tag is
excluded only in callback mode); on invocation failure the machine is set
to the failed state with log collection disabled, `None` is returned, and
nothing is retried; on success the trace continues with the
reboot-to-instance sequence and the done state is returned exactly when
that sequence succeeds. -/
theorem deploy_sync_behaviour (cfg : Config) (env : Env) (node : Node) (ip : String)
    (hsync : cfg.use_ramdisk_callback = false)
    (hdhcp : env.dhcp_addresses = [ip]) :
    ((ansibleDeploy cfg env node ip).1.countP
        (fun e => match e with | .runPlaybook _ _ _ _ _ => true | _ => false) ≤ 1) ∧
    (∀ v pb user key, prepareVariables cfg env node = .ok v →
      parseAnsibleDriverInfo node "deploy" = .ok (pb, user, key) →
      (ansibleDeploy cfg env node ip).1 =
        [.runPlaybook pb
          (prepareExtraVars [(node.uuid, ip, user, node.extra)]
            (some (if !node.driver_internal_info.is_whole_disk_image then
                    { v with partition_info := some (parsePartitioningInfo node.part) }
                   else v)))
          key [] []]) ∧
    (∀ e, (ansibleDeploy cfg env node ip).2 = .error e →
      deploy cfg env node =
        (Event.powerAction REBOOT :: Event.dhcpLookup :: (ansibleDeploy cfg env node ip).1 ++
          [Event.setFailedState false], .ok none)) ∧
    ((ansibleDeploy cfg env node ip).2 = .ok () →
      deploy cfg env node =
        (Event.powerAction REBOOT :: Event.dhcpLookup :: (ansibleDeploy cfg env node ip).1 ++
           (rebootToInstance cfg env node).1,
         (rebootToInstance cfg env node).2.map (fun _ => some DEPLOYDONE))) := by
  have hget : getNodeIpDhcp env.dhcp_addresses = .ok ip := by
    rw [hdhcp]
    rfl
  refine ⟨?_, ?_, ?_, ?_⟩
  · rw [ansibleDeploy]
    rcases prepareVariables cfg env node with e | v
    · simp
    · rcases parseAnsibleDriverInfo node "deploy" with e | ⟨pb, user, key⟩ <;> simp
  · intro v pb user key hv hp
    simp [ansibleDeploy, hv, hp, hsync]
  · intro e herr
    rcases ha : ansibleDeploy cfg env node ip with ⟨evA, rA⟩
    simp only [ha] at herr
    subst herr
    simp [deploy, hsync, hget, ha]
  · intro hok
    rcases ha : ansibleDeploy cfg env node ip with ⟨evA, rA⟩
    simp only [ha] at hok
    subst hok
    rcases hr : rebootToInstance cfg env node with ⟨evR, rR⟩
    simp [deploy, hsync, hget, ha, hr]

/-- Collaborator outcomes with a failing deploy playbook, for the C1
witness. -/
def envSyncFail : Env := { dhcp_addresses := ["10.0.0.5"], deploy_playbook_result := .error "err" }

theorem deploy_sync_behaviour_witness :
    deploy cfgSync envSyncFail nodeSyncC1 =
      (Event.powerAction REBOOT :: Event.dhcpLookup ::
          (ansibleDeploy cfgSync envSyncFail nodeSyncC1 "10.0.0.5").1 ++
        [Event.setFailedState false], .ok none) :=
  (deploy_sync_behaviour cfgSync envSyncFail nodeSyncC1 "10.0.0.5" rfl rfl).2.2.1
    (.instanceDeployFailure "err") rfl

end AnsibleDeploy
